import Mathlib

/-!
Verification of the offline RAG pipeline (`src/app/rag_pipeline.py`) against its
natural-language specification.

The embedding below is a shallow model of the Python source.  Strings are
modelled as `List Char` (`Str`); Python regular-expression operations used by
the source (`re.sub(r"\s+", " ", ·)`, `re.findall(r"\w+", ·)`,
`re.split(r"(?<=[.!?])\s+", ·)`) are modelled as structural character scans
over the ASCII character classes; Python exceptions are modelled with
`Except PyErr`.  The two external library calls of the index
(`TfidfVectorizer.fit_transform` / `transform` + `cosine_similarity`, and
`np.argsort`) are modelled by parameters carrying exactly their documented
contracts: fitting is a deterministic function of the document list (it may
fail, e.g. on an empty vocabulary, abstracted by a `fitOk` predicate);
`cosine_similarity(transform([q]), matrix)[0]` is a deterministic function of
the fitted documents and the query returning one score per matrix row; and
`np.argsort(-sims)` returns a permutation of `range(len(sims))` along which
the scores are non-increasing (numpy's default `kind='quicksort'` documents
no stability guarantee, so stability is deliberately not part of the
contract).
-/

/-- Python strings, modelled as lists of characters. -/
abbrev Str := List Char

/-- The ASCII portion of the Python regex class `\s` (and of `str.strip`). -/
def isPySpace (c : Char) : Bool :=
  c = ' ' || c = '\t' || c = '\n' || c = '\r' || c = '\x0b' || c = '\x0c'

/-- The ASCII portion of the Python regex class `\w`. -/
def isWordChar (c : Char) : Bool :=
  c.isAlpha || c.isDigit || c = '_'

/-- The sentence-terminating characters of `re.split(r"(?<=[.!?])\s+", ·)`. -/
def isSentEnd (c : Char) : Bool :=
  c = '.' || c = '!' || c = '?'

/-- Worker for `collapseWS`: `prevSpace` records whether the previously read
character was whitespace (whose replacement space has already been emitted). -/
def collapseGo : Bool → Str → Str
  | _, [] => []
  | prevSpace, c :: cs =>
    if isPySpace c then
      if prevSpace then collapseGo true cs else ' ' :: collapseGo true cs
    else c :: collapseGo false cs

/-- `re.sub(r"\s+", " ", text)`: every maximal whitespace run becomes one space. -/
def collapseWS (s : Str) : Str := collapseGo false s

/-- Python `str.strip()`: drop leading and trailing whitespace. -/
def stripStr (s : Str) : Str :=
  ((s.dropWhile isPySpace).reverse.dropWhile isPySpace).reverse

/-- The whitespace normalization at the start of `LocalCorpus._split_text`:
`re.sub(r"\s+", " ", text).strip()`. -/
def normalizeWS (s : Str) : Str := stripStr (collapseWS s)

/-- The `Chunk` dataclass. -/
structure Chunk where
  doc_id : Str
  chunk_id : Nat
  text : Str
deriving DecidableEq, Repr

/-- The `LocalCorpus` configuration (its `data_dir` is modelled by passing the
directory contents to `load` directly). -/
structure LocalCorpus where
  chunk_size : Nat := 600
  chunk_overlap : Nat := 80
deriving DecidableEq, Repr

/-- `LocalCorpus._split_text`: normalize whitespace, then slide a
`chunk_size`-character window with stride `max 1 (chunk_size - chunk_overlap)`
(`range(0, len(text), step)` visits `ceil(len/step)` start offsets). -/
def LocalCorpus.split_text (c : LocalCorpus) (text : Str) : List Str :=
  let t := normalizeWS text
  if t = [] then []
  else
    let step := max 1 (c.chunk_size - c.chunk_overlap)
    (List.range' 0 ((t.length + step - 1) / step) step).map
      (fun i => (t.drop i).take c.chunk_size)

/-- `LocalCorpus.load`: the argument is the directory content as the sorted
list of `(file name, file text)` pairs produced by `sorted(glob("*.txt"))`;
each file contributes its windows with 0-based per-document chunk ids.
`load` raises nothing: an empty directory yields the empty chunk list. -/
def LocalCorpus.load (c : LocalCorpus) (files : List (Str × Str)) : List Chunk :=
  files.flatMap fun f =>
    (c.split_text f.2).enum.map fun p => ⟨f.1, p.1, p.2⟩

/-- The Python exceptions the modelled code can raise. -/
inductive PyErr where
  /-- `AssertionError` from `assert self.vectorizer is not None and self.matrix is not None`. -/
  | assertNotBuilt
  /-- sklearn `NotFittedError` from `transform` on a constructed-but-unfitted vectorizer. -/
  | notFitted
  /-- `IndexError` (list index out of range). -/
  | indexError
  /-- `RuntimeError("No .txt files found in data directory.")` from `RAGPipeline.build`. -/
  | emptyCorpus
  /-- sklearn `ValueError` from `fit_transform` (e.g. empty vocabulary). -/
  | fitError
  /-- `RuntimeError("OPENAI_API_KEY not set. ...")` from `OpenAIAnswerer.__init__`. -/
  | configError
deriving DecidableEq, Repr

/-- State of the `TfidfVectorizer` object held by the index: freshly
constructed (`TfidfVectorizer(...)` before `fit_transform`) or fitted, in
which case it is determined by the document list it was fitted on (sklearn
fitting is deterministic). -/
inductive VecState where
  | unfitted
  | fitted (docs : List Str)
deriving DecidableEq, Repr

/-- The `TfidfIndex` instance state.  The sparse matrix
`fit_transform(docs)` is likewise determined by `docs`, so it is represented
by the document list it was computed from. -/
structure TfidfIndex where
  vectorizer : Option VecState
  matrix : Option (List Str)
  chunks : List Chunk
deriving DecidableEq, Repr

/-- `TfidfIndex.__init__`: vectorizer `None`, matrix `None`, chunks `[]`. -/
def freshIndex : TfidfIndex := ⟨none, none, []⟩

/-- `TfidfIndex.build`.  `fitOk docs` abstracts whether
`TfidfVectorizer(ngram_range=(1,2), min_df=1, max_df=0.9).fit_transform(docs)`
succeeds (it is a deterministic function of `docs`).  Mirrors the statement
order of the source: `self.chunks` is assigned, then `self.vectorizer` is
replaced by a fresh unfitted object, and only if fitting succeeds do the
fitted vectorizer and the matrix land in the state; on a fitting failure the
exception propagates with the partial state visible. -/
def TfidfIndex.build (fitOk : List Str → Bool) (s : TfidfIndex) (chunks : List Chunk) :
    TfidfIndex × Option PyErr :=
  let docs := chunks.map Chunk.text
  if fitOk docs then
    (⟨some (.fitted docs), some docs, chunks⟩, none)
  else
    (⟨some .unfitted, s.matrix, chunks⟩, some .fitError)

/-- The list comprehension `[(self.chunks[i], float(sims[i])) for i in idxs]`,
with `IndexError` propagation (`none`) if an index is out of range. -/
def lookupHits (chunks : List Chunk) (sims : List ℚ) : List Nat → Option (List (Chunk × ℚ))
  | [] => some []
  | i :: is =>
    match chunks.get? i, sims.get? i with
    | some c, some v => (lookupHits chunks sims is).map (fun r => (c, v) :: r)
    | _, _ => none

/-- `TfidfIndex.search`.  `cosSim docs q` models
`cosine_similarity(self.vectorizer.transform([q]), self.matrix)[0]` as a
deterministic function of the fitted documents and the query;
`argsortNeg sims` models `np.argsort(-sims)`.  The `assert` raises when the
vectorizer or the matrix is `None`; `transform` raises `NotFittedError` on an
unfitted vectorizer. -/
def TfidfIndex.search (cosSim : List Str → Str → List ℚ) (argsortNeg : List ℚ → List Nat)
    (s : TfidfIndex) (q : Str) (k : Nat) : Except PyErr (List (Chunk × ℚ)) :=
  match s.vectorizer, s.matrix with
  | some .unfitted, some _ => .error .notFitted
  | some (.fitted docs), some _ =>
    let sims := cosSim docs q
    match lookupHits s.chunks sims ((argsortNeg sims).take k) with
    | some res => .ok res
    | none => .error .indexError
  | _, _ => .error .assertNotBuilt

/-- A concrete sorting function satisfying the documented `np.argsort`
contract: indices of `sims`, ordered by non-increasing score.  (Insertion
sort; used to instantiate witnesses.) -/
def argsortDesc (sims : List ℚ) : List Nat :=
  List.insertionSort (fun i j => sims.getD j 0 ≤ sims.getD i 0) (List.range sims.length)

/-- A concrete similarity function satisfying the documented
`cosine_similarity` contract (one score per matrix row); it returns an
all-zero score vector, which is what the real code produces for a query whose
terms are all out of vocabulary. -/
def cosSimZero : List Str → Str → List ℚ :=
  fun docs _ => docs.map (fun _ => 0)

/-- A fitting oracle that always succeeds (used to instantiate witnesses). -/
def fitOkAlways : List Str → Bool := fun _ => true

/-- Another function satisfying the documented `np.argsort` contract
(permutation of the index range, scores non-increasing along it), which on
the tied score vector `[0, 0]` returns the indices in the order `[1, 0]`:
the contract of numpy's default (non-stable) `kind='quicksort'` does not
force tied indices into original order. -/
def argsortTieSwap (sims : List ℚ) : List Nat :=
  if sims = [0, 0] then [1, 0] else argsortDesc sims

/-- Worker for `pyWords`: accumulate the current (reversed) maximal `\w+` run. -/
def findWords : Str → Str → List Str
  | acc, [] => if acc = [] then [] else [acc.reverse]
  | acc, c :: cs =>
    if isWordChar c then findWords (c :: acc) cs
    else if acc = [] then findWords [] cs
    else acc.reverse :: findWords [] cs

/-- `re.findall(r"\w+", s.lower())`. -/
def pyWords (s : Str) : List Str := findWords [] (s.map Char.toLower)

/-- `set(re.findall(r"\w+", query.lower()))`, as a deduplicated list. -/
def queryTerms (q : Str) : List Str := (pyWords q).dedup

/-- Python `round(0.2 * n)` for a natural `n`, as exact rational rounding of
`n/5` (the fractional part of `n/5` is never one half, and the IEEE-754
evaluation `round(0.2 * n)` agrees with the exact value for every `n`
reachable here, so no float modelling is needed). -/
def pyRoundFifth (n : Nat) : Nat := (2 * n + 5) / 10

/-- The sentence-keeping threshold `max(1, round(0.2 * max(len(terms), 1)))`. -/
def threshold (terms : List Str) : Nat := max 1 (pyRoundFifth (max terms.length 1))

/-- `len(terms & toks)` where `toks = set(re.findall(r"\w+", sent.lower()))`. -/
def overlapCount (terms : List Str) (sent : Str) : Nat :=
  ((pyWords sent).dedup.filter (fun w => decide (w ∈ terms))).length

/-- Worker for `splitSentences`, a character scan equivalent to
`re.split(r"(?<=[.!?])\s+", s)`: in skipping mode the whitespace run of the
current match is being consumed; otherwise `acc` holds the current (reversed)
piece, whose head is the previously read character (the lookbehind). -/
def splitSentGo : Bool → Str → Str → List Str
  | _, acc, [] => [acc.reverse]
  | true, acc, c :: cs =>
    if isPySpace c then splitSentGo true acc cs
    else splitSentGo false [c] cs
  | false, acc, c :: cs =>
    if isPySpace c && (match acc with | p :: _ => isSentEnd p | [] => false) then
      acc.reverse :: splitSentGo true [] cs
    else splitSentGo false (c :: acc) cs

/-- `re.split(r"(?<=[.!?])\s+", s)`. -/
def splitSentences (s : Str) : List Str := splitSentGo false [] s

/-- Python substring test `needle in hay`. -/
def isSubstr (needle : Str) : Str → Bool
  | [] => needle.isEmpty
  | c :: cs => needle.isPrefixOf (c :: cs) || isSubstr needle cs

/-- The context-assembly loop of `OfflineAnswerer.answer`: greedily append
whole stripped chunk texts (joined by a newline) while
`len(context) + len(snippet) + 1` stays within `max_context_chars`; the first
overflowing chunk breaks the loop. -/
def buildContext (mc : Nat) (ctx : Str) (chosen : List (Chunk × ℚ)) :
    List (Chunk × ℚ) → Str × List (Chunk × ℚ)
  | [] => (ctx, chosen)
  | h :: rest =>
    let snippet := stripStr h.1.text
    if mc < ctx.length + snippet.length + 1 then (ctx, chosen)
    else buildContext mc (ctx ++ (if ctx = [] then [] else ['\n']) ++ snippet)
      (chosen ++ [h]) rest

/-- The attribution loop: the first chunk of `chosen` whose original text
contains the stripped sentence. -/
def firstContaining (ss : Str) : List (Chunk × ℚ) → Option Chunk
  | [] => none
  | h :: rest => if isSubstr ss h.1.text then some h.1 else firstContaining ss rest

/-- One iteration of the sentence-selection loop: keep `sent` if its distinct
lowercase words overlap `terms` at least `threshold terms` times, and a chosen
chunk contains the stripped sentence (an empty stripped sentence is skipped by
the `if sent.strip() and ...` guard). -/
def pickSent (terms : List Str) (chosen : List (Chunk × ℚ)) (sent : Str) :
    Option (Str × Chunk) :=
  if threshold terms ≤ overlapCount terms sent then
    if stripStr sent = [] then none
    else (firstContaining (stripStr sent) chosen).map (fun ch => (stripStr sent, ch))
  else none

/-- The inline citation `f"[{ch.doc_id}#{ch.chunk_id}]"`. -/
def citeOf (ch : Chunk) : Str :=
  "[".data ++ ch.doc_id ++ "#".data ++ Nat.toDigits 10 ch.chunk_id ++ "]".data

/-- One bullet line `f"- {sent} {cite}"`. -/
def renderLine (p : Str × Chunk) : Str :=
  "- ".data ++ p.1 ++ " ".data ++ citeOf p.2

/-- The final answer string: header, up to five bullet lines, fixed footer. -/
def renderAnswer (picked : List (Str × Chunk)) : Str :=
  "Answer (offline):\n".data
    ++ List.intercalate "\n".data ((picked.take 5).map renderLine)
    ++ "\n\n(This answer was composed from retrieved local text with citations.)".data

/-- The fixed message returned when `hits` is empty. -/
def noHitsMsg : Str :=
  "I couldn".data ++ [Char.ofNat 39]
    ++ "t find anything relevant in the local corpus.".data

/-- The `OfflineAnswerer` configuration. -/
structure OfflineAnswerer where
  max_context_chars : Nat := 2000
deriving DecidableEq, Repr

/-- `OfflineAnswerer.answer`.  The fallback branch evaluates `chosen[0]`,
which raises `IndexError` when the context-assembly loop chose no chunk. -/
def OfflineAnswerer.answer (a : OfflineAnswerer) (q : Str) (hits : List (Chunk × ℚ)) :
    Except PyErr Str :=
  match hits with
  | [] => .ok noHitsMsg
  | _ :: _ =>
    let cc := buildContext a.max_context_chars [] [] hits
    let picked := (splitSentences cc.1).filterMap (pickSent (queryTerms q) cc.2)
    if picked = [] then
      match cc.2 with
      | [] => .error .indexError
      | top :: _ =>
        .ok (renderAnswer [((splitSentences (stripStr top.1.text)).headD [], top.1)])
    else .ok (renderAnswer picked)

/-- The `OpenAIAnswerer` state after a successful construction. -/
structure OpenAIAnswerer where
  model : Str
  api_key : Str
deriving DecidableEq, Repr

/-- `OpenAIAnswerer.__init__`: `env_key` is `os.getenv("OPENAI_API_KEY")`
(`none` when the variable is absent).  `if not self.api_key: raise ...` fires
both on `None` and on an empty string (Python falsiness). -/
def OpenAIAnswerer.init (model : Str) (env_key : Option Str) :
    Except PyErr OpenAIAnswerer :=
  match env_key with
  | none => .error .configError
  | some key => if key = [] then .error .configError else .ok ⟨model, key⟩

/-- The `RAGPipeline` state (offline-answerer configuration): the corpus
loader and the index.  The answerer choice is a construction-time constant
and carries no state relevant to build/search. -/
structure RAGPipeline where
  corpus : LocalCorpus
  index : TfidfIndex
deriving DecidableEq, Repr

/-- `RAGPipeline.__init__(data_dir, use_openai=False)`. -/
def RAGPipeline.init : RAGPipeline := ⟨{}, freshIndex⟩

/-- `RAGPipeline.build`: load the corpus (the directory contents are the
`files` argument), raise on an empty chunk list, otherwise build the index. -/
def RAGPipeline.build (fitOk : List Str → Bool) (p : RAGPipeline)
    (files : List (Str × Str)) : RAGPipeline × Option PyErr :=
  let chunks := p.corpus.load files
  if chunks = [] then (p, some .emptyCorpus)
  else
    let r := p.index.build fitOk chunks
    ({ p with index := r.1 }, r.2)

/-- The corpus loader with the default configuration (`chunk_size=600`,
`chunk_overlap=80`). -/
def defaultCorpus : LocalCorpus := {}

/-- A 521-character document (two windows at stride 520). -/
def txt521 : Str := List.replicate 521 'a'

/-- A chunk whose stripped text has exactly 2000 characters, overflowing the
default context budget. -/
def bigChunk : Chunk := ⟨"big.txt".data, 0, List.replicate 2000 'a'⟩

/-- A small concrete chunk. -/
def chunkA0 : Chunk := ⟨"a.txt".data, 0, "hi".data⟩

/-- A second small concrete chunk with the same text. -/
def chunkA1 : Chunk := ⟨"a.txt".data, 1, "hi".data⟩

/-- A concrete two-sentence chunk sharing no word with the query `zzz`. -/
def chunkAlpha : Chunk := ⟨"a.txt".data, 0, "Alpha beta. Gamma delta.".data⟩

theorem argsortDesc_perm (sims : List ℚ) :
    (argsortDesc sims).Perm (List.range sims.length) :=
  List.perm_insertionSort _ _

theorem argsortDesc_sorted (sims : List ℚ) :
    ((argsortDesc sims).map (fun i => sims.getD i 0)).Sorted (fun a b => b ≤ a) := by
  have hs : (argsortDesc sims).Sorted (fun i j => sims.getD j 0 ≤ sims.getD i 0) := by
    haveI : IsTotal Nat (fun i j => sims.getD j 0 ≤ sims.getD i 0) :=
      ⟨fun i j => le_total (sims.getD j 0) (sims.getD i 0)⟩
    haveI : IsTrans Nat (fun i j => sims.getD j 0 ≤ sims.getD i 0) :=
      ⟨fun _ _ _ h1 h2 => le_trans h2 h1⟩
    exact List.sorted_insertionSort _ _
  unfold List.Sorted at hs ⊢
  rw [List.pairwise_map]
  exact hs

theorem lookupHits_eq (chunks : List Chunk) (sims : List ℚ) :
    ∀ is : List Nat, (∀ i ∈ is, i < chunks.length ∧ i < sims.length) →
      lookupHits chunks sims is =
        some (is.map (fun i => (chunks.getD i ⟨[], 0, []⟩, sims.getD i 0)))
  | [], _ => rfl
  | i :: is, h => by
    obtain ⟨h1, h2⟩ := h i (by simp)
    obtain ⟨c, hc⟩ : ∃ c, chunks.get? i = some c := by
      cases hg : chunks.get? i with
      | none => exact absurd (List.get?_eq_none.mp hg) (by omega)
      | some c => exact ⟨c, rfl⟩
    obtain ⟨v, hv⟩ : ∃ v, sims.get? i = some v := by
      cases hg : sims.get? i with
      | none => exact absurd (List.get?_eq_none.mp hg) (by omega)
      | some v => exact ⟨v, rfl⟩
    have ih := lookupHits_eq chunks sims is (fun j hj => h j (by simp [hj]))
    simp only [lookupHits, hc, hv, ih, List.map_cons]
    have hcd : chunks.getD i ⟨[], 0, []⟩ = c := by
      rw [List.getD_eq_get? chunks i, hc]; rfl
    have hvd : sims.getD i 0 = v := by
      rw [List.getD_eq_get? sims i, hv]; rfl
    rw [hcd, hvd]; rfl

theorem get?_map_range' {α : Type} (f : Nat → α) (step : Nat) :
    ∀ (n s j : Nat), ((List.range' s n step).map f).get? j =
      if j < n then some (f (s + step * j)) else none
  | 0, s, j => by simp [List.range']
  | n + 1, s, j => by
    rw [List.range'_succ, List.map_cons]
    cases j with
    | zero => simp
    | succ j =>
      have ih := get?_map_range' f step n (s + step) j
      simp only [List.get?_cons_succ, ih]
      have harith : s + step + step * j = s + step * (j + 1) := by ring
      rw [harith]
      congr 1
      simp [Nat.succ_lt_succ_iff]

theorem buildContext_chosen_append (mc : Nat) :
    ∀ (l : List (Chunk × ℚ)) (ctx : Str) (chosen : List (Chunk × ℚ)),
      ∃ t, (buildContext mc ctx chosen l).2 = chosen ++ t
  | [], ctx, chosen => ⟨[], by simp [buildContext]⟩
  | h :: rest, ctx, chosen => by
    by_cases hov : mc < ctx.length + (stripStr h.1.text).length + 1
    · exact ⟨[], by simp [buildContext, hov]⟩
    · obtain ⟨t, ht⟩ := buildContext_chosen_append mc rest
        (ctx ++ (if ctx = [] then [] else ['\n']) ++ stripStr h.1.text) (chosen ++ [h])
      refine ⟨[h] ++ t, ?_⟩
      simp only [buildContext, if_neg hov]
      rw [ht, List.append_assoc]

/-- C7: `build` is idempotent — for every prior index state and every chunk
sequence, building twice on the same sequence leaves index state whose
`search` results (same chunks, same scores, same order) coincide with those
after a single build, for every query and every `k`, for any similarity and
argsort functions and any fitting outcome. -/
theorem build_idempotent_search (fitOk : List Str → Bool)
    (cosSim : List Str → Str → List ℚ) (argsortNeg : List ℚ → List Nat)
    (s : TfidfIndex) (chunks : List Chunk) (q : Str) (k : Nat) :
    TfidfIndex.search cosSim argsortNeg
      (TfidfIndex.build fitOk (TfidfIndex.build fitOk s chunks).1 chunks).1 q k =
    TfidfIndex.search cosSim argsortNeg (TfidfIndex.build fitOk s chunks).1 q k := by
  cases h : fitOk (chunks.map Chunk.text) <;>
    simp [TfidfIndex.build, h]

/-- C3 counterexample: with zero eligible text files, `LocalCorpus.load`
does not fail — it succeeds with the empty chunk list (the source's `load`
contains no raise; the claimed NotFoundError lives in `RAGPipeline.build`). -/
theorem load_zero_files_counterexample : defaultCorpus.load [] = [] := rfl

/-- C3 amended: `load` on a directory with zero eligible text files succeeds
with the empty chunk sequence; the not-found failure (`RuntimeError`) is
raised by the orchestrator's `build` when the loaded chunk list is empty,
which also leaves the pipeline state untouched. -/
theorem load_zero_files_amended (c : LocalCorpus) (fitOk : List Str → Bool) :
    c.load [] = [] ∧
    (RAGPipeline.build fitOk RAGPipeline.init []).2 = some PyErr.emptyCorpus ∧
    (RAGPipeline.build fitOk RAGPipeline.init []).1 = RAGPipeline.init :=
  ⟨rfl, rfl, rfl⟩

/-- C4 counterexample: after a successful build, `search` with `k = 0`
returns the empty hit list successfully — an empty silent success, not a
NotBuiltError. -/
theorem search_k_zero_counterexample :
    TfidfIndex.search cosSimZero argsortDesc
      (TfidfIndex.build fitOkAlways freshIndex [chunkA0]).1 "x".data 0 = .ok [] := rfl

/-- C4 amended: `search` fails with the not-built assertion whenever it is
called before any build (for every `k`, including `k = 0`); after a
successful build, `k = 0` yields an empty result list, not an error. -/
theorem search_not_built_amended (cosSim : List Str → Str → List ℚ)
    (argsortNeg : List ℚ → List Nat) (q : Str) (k : Nat)
    (fitOk : List Str → Bool) (s : TfidfIndex) (chunks : List Chunk) :
    TfidfIndex.search cosSim argsortNeg freshIndex q k = .error PyErr.assertNotBuilt ∧
    (fitOk (chunks.map Chunk.text) = true →
      TfidfIndex.search cosSim argsortNeg (TfidfIndex.build fitOk s chunks).1 q 0 =
        .ok []) := by
  refine ⟨rfl, fun h => ?_⟩
  simp [TfidfIndex.build, h, TfidfIndex.search, lookupHits]

/-- C4 witness: a concrete fresh index errors on search, and a concretely
built one returns `.ok []` at `k = 0`. -/
theorem search_not_built_amended_witness :
    TfidfIndex.search cosSimZero argsortDesc freshIndex "x".data 3 =
      .error PyErr.assertNotBuilt ∧
    TfidfIndex.search cosSimZero argsortDesc
      (TfidfIndex.build fitOkAlways freshIndex [chunkA1]).1 "x".data 0 = .ok [] :=
  ⟨(search_not_built_amended cosSimZero argsortDesc "x".data 3 fitOkAlways freshIndex
      [chunkA1]).1,
   (search_not_built_amended cosSimZero argsortDesc "x".data 3 fitOkAlways freshIndex
      [chunkA1]).2 rfl⟩

/-- C9 counterexample: with the credential present in the environment but
empty (`OPENAI_API_KEY=""`), construction still fails — Python's
`if not self.api_key` treats the empty string as falsy. -/
theorem openai_init_empty_key_counterexample :
    OpenAIAnswerer.init "gpt-4o-mini".data (some []) = .error PyErr.configError := rfl

/-- C9 amended: construction fails with the configuration error at
construction time when the credential is absent from the environment or
present but empty, and succeeds exactly when a non-empty credential is
present. -/
theorem openai_init_amended (model key : Str) :
    OpenAIAnswerer.init model none = .error PyErr.configError ∧
    OpenAIAnswerer.init model (some []) = .error PyErr.configError ∧
    (key ≠ [] → OpenAIAnswerer.init model (some key) = .ok ⟨model, key⟩) := by
  refine ⟨rfl, rfl, fun h => ?_⟩
  simp [OpenAIAnswerer.init, h]

/-- C9 witness: a concrete non-empty key constructs successfully, a missing
one fails. -/
theorem openai_init_amended_witness :
    OpenAIAnswerer.init "gpt-4o-mini".data none = .error PyErr.configError ∧
    OpenAIAnswerer.init "gpt-4o-mini".data (some "k".data) =
      .ok ⟨"gpt-4o-mini".data, "k".data⟩ :=
  ⟨(openai_init_amended "gpt-4o-mini".data "k".data).1,
   (openai_init_amended "gpt-4o-mini".data "k".data).2.2 (by decide)⟩

/-- C2: the ranking contract the source actually relies on does not force
input-order tie-breaking.  `argsortTieSwap` satisfies everything
`np.argsort`'s documented default (`kind='quicksort'`, not stable)
guarantees — it returns a permutation of the index range along which the
scores are non-increasing — yet on a built two-chunk index with tied
(out-of-vocabulary, all-zero) scores, `search` under it returns the tied
chunks in reversed original order. -/
theorem search_tie_order_not_guaranteed :
    (∀ sims, (argsortTieSwap sims).Perm (List.range sims.length)) ∧
    (∀ sims, ((argsortTieSwap sims).map (fun i => sims.getD i 0)).Sorted
      (fun a b => b ≤ a)) ∧
    TfidfIndex.search cosSimZero argsortTieSwap
        (TfidfIndex.build fitOkAlways freshIndex [chunkA0, chunkA1]).1 "x".data 2 =
      .ok [(chunkA1, 0), (chunkA0, 0)] := by
  refine ⟨fun sims => ?_, fun sims => ?_, rfl⟩
  · by_cases h : sims = [0, 0]
    · subst h; simp only [argsortTieSwap, if_pos rfl]; decide
    · simpa only [argsortTieSwap, if_neg h] using argsortDesc_perm sims
  · by_cases h : sims = [0, 0]
    · subst h; simp only [argsortTieSwap, if_pos rfl]; decide
    · simpa only [argsortTieSwap, if_neg h] using argsortDesc_sorted sims

/-- C8: the orchestrator's `build` fails with the empty-corpus error exactly
when the chunker produced zero chunks, and in that case the index is never
built — it stays in its fresh state, on which any subsequent `search` still
fails with the not-built assertion. -/
theorem pipeline_build_empty_corpus (fitOk : List Str → Bool)
    (files : List (Str × Str)) (cosSim : List Str → Str → List ℚ)
    (argsortNeg : List ℚ → List Nat) (q : Str) (k : Nat) :
    (defaultCorpus.load files = [] ↔
      (RAGPipeline.build fitOk RAGPipeline.init files).2 = some PyErr.emptyCorpus) ∧
    (defaultCorpus.load files = [] →
      (RAGPipeline.build fitOk RAGPipeline.init files).1.index = freshIndex ∧
      TfidfIndex.search cosSim argsortNeg
        (RAGPipeline.build fitOk RAGPipeline.init files).1.index q k =
        .error PyErr.assertNotBuilt) := by
  have hcorp : RAGPipeline.init.corpus = defaultCorpus := rfl
  by_cases hl : defaultCorpus.load files = []
  · have hb : RAGPipeline.build fitOk RAGPipeline.init files =
        (RAGPipeline.init, some PyErr.emptyCorpus) := by
      simp only [RAGPipeline.build]
      rw [hcorp, if_pos hl]
    refine ⟨⟨fun _ => by rw [hb], fun _ => hl⟩,
      fun _ => ⟨by rw [hb]; rfl, by rw [hb]; rfl⟩⟩
  · refine ⟨⟨fun h => absurd h hl, fun h => ?_⟩, fun h => absurd h hl⟩
    exfalso
    have hb2 : (RAGPipeline.build fitOk RAGPipeline.init files).2 =
        (TfidfIndex.build fitOk freshIndex (defaultCorpus.load files)).2 := by
      simp only [RAGPipeline.build]
      rw [hcorp, if_neg hl]
      rfl
    rw [hb2] at h
    revert h
    cases hf : fitOk ((defaultCorpus.load files).map Chunk.text) <;>
      simp [TfidfIndex.build, hf]

/-- C8 witness: a concrete empty directory makes `build` fail with the
empty-corpus error and leaves `search` failing as not-built. -/
theorem pipeline_build_empty_corpus_witness :
    (RAGPipeline.build fitOkAlways RAGPipeline.init []).2 = some PyErr.emptyCorpus ∧
    TfidfIndex.search cosSimZero argsortDesc
      (RAGPipeline.build fitOkAlways RAGPipeline.init []).1.index "q".data 4 =
      .error PyErr.assertNotBuilt :=
  ⟨(pipeline_build_empty_corpus fitOkAlways [] cosSimZero argsortDesc "q".data 4).1.mp
      rfl,
   ((pipeline_build_empty_corpus fitOkAlways [] cosSimZero argsortDesc "q".data
      4).2 rfl).2⟩

/-- C5: with the default configuration (`chunk_size=600`, `chunk_overlap=80`),
a document whose whitespace-normalized text is non-empty splits into
`ceil(len/520)` windows, the `j`-th being the 600-character slice of the
normalized text starting at offset `520 * j` (so consecutive start offsets
differ by exactly 520, the final window possibly shorter), and `load` assigns
the windows 0-based sequential per-document chunk indices; a
whitespace-normalized-empty document yields zero chunks without error. -/
theorem split_text_stride (text : Str) :
    (normalizeWS text = [] → defaultCorpus.split_text text = []) ∧
    (normalizeWS text ≠ [] →
      (defaultCorpus.split_text text).length = ((normalizeWS text).length + 519) / 520 ∧
      (∀ j : Nat, (defaultCorpus.split_text text).get? j =
        if 520 * j < (normalizeWS text).length
        then some (((normalizeWS text).drop (520 * j)).take 600) else none) ∧
      (∀ name : Str, (defaultCorpus.load [(name, text)]).map Chunk.chunk_id =
        List.range (defaultCorpus.split_text text).length)) := by
  constructor
  · intro h
    simp [LocalCorpus.split_text, h]
  · intro h
    have hsplit : defaultCorpus.split_text text =
        (List.range' 0 (((normalizeWS text).length + 519) / 520) 520).map
          (fun i => ((normalizeWS text).drop i).take 600) := by
      simp only [LocalCorpus.split_text, if_neg h]
      norm_num [defaultCorpus]
    have hiff : ∀ j : Nat,
        (j < ((normalizeWS text).length + 519) / 520 ↔
          520 * j < (normalizeWS text).length) := by
      intro j
      have hn : 0 < (normalizeWS text).length := List.length_pos.mpr h
      rw [Nat.lt_iff_add_one_le, Nat.le_div_iff_mul_le (by norm_num : (0:ℕ) < 520)]
      omega
    refine ⟨?_, ?_, ?_⟩
    · rw [hsplit, List.length_map, List.length_range']
    · intro j
      rw [hsplit, get?_map_range' _ 520 _ 0 j, if_congr (hiff j) rfl rfl]
      simp
    · intro name
      have hload : defaultCorpus.load [(name, text)] =
          (defaultCorpus.split_text text).enum.map (fun p => ⟨name, p.1, p.2⟩) := by
        simp [LocalCorpus.load]
      rw [hload, List.map_map]
      have hcomp : (Chunk.chunk_id ∘ fun p : Nat × Str => (⟨name, p.1, p.2⟩ : Chunk)) =
          Prod.fst := by
        funext p
        rfl
      rw [hcomp, List.enum_map_fst]

set_option maxRecDepth 40000 in
/-- C5 witness: a concrete 521-character document produces two windows, the
second starting at offset 520. -/
theorem split_text_stride_witness :
    normalizeWS txt521 ≠ [] ∧
    (defaultCorpus.split_text txt521).get? 1 =
      (if 520 * 1 < (normalizeWS txt521).length
       then some (((normalizeWS txt521).drop (520 * 1)).take 600) else none) :=
  ⟨by decide, ((split_text_stride txt521).2 (by decide)).2.1 1⟩

/-- C1: over every built index on a non-empty chunk list and every `k > 0`,
`search` succeeds with a hit list of length `min k (number of chunks)` whose
scores are sorted non-increasingly — for any similarity function returning
one score per matrix row and any argsort meeting the documented contract
(permutation of the index range, scores non-increasing along it). -/
theorem search_count_and_sorted
    (cosSim : List Str → Str → List ℚ) (argsortNeg : List ℚ → List Nat)
    (hperm : ∀ sims, (argsortNeg sims).Perm (List.range sims.length))
    (hsort : ∀ sims, ((argsortNeg sims).map (fun i => sims.getD i 0)).Sorted
      (fun a b => b ≤ a))
    (hlen : ∀ docs query, (cosSim docs query).length = docs.length)
    (fitOk : List Str → Bool) (s : TfidfIndex) (chunks : List Chunk)
    (hfit : fitOk (chunks.map Chunk.text) = true)
    (hne : chunks ≠ []) (q : Str) (k : Nat) (hk : 0 < k) :
    ∃ res, TfidfIndex.search cosSim argsortNeg (TfidfIndex.build fitOk s chunks).1 q k =
        .ok res ∧
      res.length = min k chunks.length ∧
      (res.map Prod.snd).Sorted (fun a b => b ≤ a) := by
  have hbuild : (TfidfIndex.build fitOk s chunks).1 =
      ⟨some (.fitted (chunks.map Chunk.text)), some (chunks.map Chunk.text), chunks⟩ := by
    simp [TfidfIndex.build, hfit]
  set docs := chunks.map Chunk.text with hdocs
  set sims := cosSim docs q with hsims
  have hslen : sims.length = chunks.length := by
    rw [hsims, hlen, hdocs, List.length_map]
  set idxs := (argsortNeg sims).take k with hidxs
  have hargl : (argsortNeg sims).length = sims.length :=
    ((hperm sims).length_eq).trans (List.length_range _)
  have hmem : ∀ i ∈ idxs, i < chunks.length ∧ i < sims.length := by
    intro i hi
    have h1 : i ∈ argsortNeg sims := List.mem_of_mem_take hi
    have h2 : i ∈ List.range sims.length := (hperm sims).mem_iff.mp h1
    have hlt := List.mem_range.mp h2
    exact ⟨by omega, hlt⟩
  have hlook := lookupHits_eq chunks sims idxs hmem
  refine ⟨idxs.map (fun i => (chunks.getD i ⟨[], 0, []⟩, sims.getD i 0)), ?_, ?_, ?_⟩
  · rw [hbuild]
    have hsearch : TfidfIndex.search cosSim argsortNeg
        ⟨some (.fitted docs), some docs, chunks⟩ q k =
        (match lookupHits chunks sims idxs with
          | some res => .ok res
          | none => .error PyErr.indexError) := rfl
    rw [hsearch, hlook]
  · rw [List.length_map, hidxs, List.length_take, hargl, hslen]
  · rw [List.map_map]
    have hcomp : (Prod.snd ∘ fun i => (chunks.getD i ⟨[], 0, []⟩, sims.getD i 0)) =
        fun i => sims.getD i 0 := rfl
    rw [hcomp, hidxs, List.map_take]
    exact List.Pairwise.sublist (List.take_sublist _ _) (hsort sims)

/-- C1 witness: a concretely built one-chunk index searched with `k = 1`. -/
theorem search_count_and_sorted_witness :
    (0 < 1) ∧ ([chunkA0] ≠ ([] : List Chunk)) ∧
    ∃ res, TfidfIndex.search cosSimZero argsortDesc
        (TfidfIndex.build fitOkAlways freshIndex [chunkA0]).1 "x".data 1 = .ok res ∧
      res.length = min 1 ([chunkA0].length) ∧
      (res.map Prod.snd).Sorted (fun a b => b ≤ a) :=
  ⟨by decide, by decide,
   search_count_and_sorted cosSimZero argsortDesc argsortDesc_perm argsortDesc_sorted
     (fun docs query => by simp [cosSimZero]) fitOkAlways freshIndex [chunkA0] rfl
     (by decide) "x".data 1 (by decide)⟩

theorem buildContext_head_fits (mc : Nat) (h : Chunk × ℚ) (rest : List (Chunk × ℚ))
    (hb : (stripStr h.1.text).length + 1 ≤ mc) :
    ∃ t, (buildContext mc [] [] (h :: rest)).2 = h :: t := by
  have hov : ¬ mc < List.length ([] : Str) + List.length (stripStr h.1.text) + 1 := by
    simp only [List.length_nil]
    omega
  obtain ⟨t, ht⟩ := buildContext_chosen_append mc rest
    (([] : Str) ++ (if ([] : Str) = [] then [] else ['\n']) ++ stripStr h.1.text) [h]
  refine ⟨t, ?_⟩
  simp only [buildContext, if_neg hov]
  exact ht

theorem picked_nil_of_below_threshold (terms : List Str) (chosen : List (Chunk × ℚ))
    (sents : List Str)
    (h : ∀ s ∈ sents, overlapCount terms s < threshold terms) :
    sents.filterMap (pickSent terms chosen) = [] :=
  List.filterMap_eq_nil_iff.mpr fun s hs => by
    unfold pickSent
    rw [if_neg (by have := h s hs; omega)]

/-- C6 amended: for every non-empty hits list whose top chunk fits the
context budget (`len(strip(text)) + 1 ≤ max_context_chars`), if no sentence
of the assembled context meets the term-overlap threshold then `answer`
returns the first sentence of the top-ranked chunk, citing that single
top-ranked chunk.  (Without the budget precondition the fallback indexes an
empty `chosen` list and raises instead — see the counterexample.) -/
theorem offline_fallback_cites_top (a : OfflineAnswerer) (q : Str) (ch : Chunk) (sc : ℚ)
    (rest : List (Chunk × ℚ))
    (hbudget : (stripStr ch.text).length + 1 ≤ a.max_context_chars)
    (hmiss : ∀ s ∈ splitSentences (buildContext a.max_context_chars [] [] ((ch, sc) :: rest)).1,
      overlapCount (queryTerms q) s < threshold (queryTerms q)) :
    a.answer q ((ch, sc) :: rest) =
      .ok (renderAnswer [((splitSentences (stripStr ch.text)).headD [], ch)]) := by
  obtain ⟨t, ht⟩ := buildContext_head_fits a.max_context_chars (ch, sc) rest hbudget
  have hpicked := picked_nil_of_below_threshold (queryTerms q)
    (buildContext a.max_context_chars [] [] ((ch, sc) :: rest)).2
    (splitSentences (buildContext a.max_context_chars [] [] ((ch, sc) :: rest)).1) hmiss
  simp only [OfflineAnswerer.answer]
  rw [hpicked, ht]
  simp

set_option maxRecDepth 40000 in
/-- C6 witness: a concrete query sharing no term with a small two-sentence
chunk makes `answer` return the first sentence of that (top-ranked) chunk
with its single citation. -/
theorem offline_fallback_cites_top_witness :
    ((stripStr chunkAlpha.text).length + 1 ≤ ({} : OfflineAnswerer).max_context_chars) ∧
    OfflineAnswerer.answer {} "zzz".data [(chunkAlpha, 0)] =
      .ok (renderAnswer [((splitSentences (stripStr chunkAlpha.text)).headD [], chunkAlpha)]) :=
  ⟨by decide,
   offline_fallback_cites_top {} "zzz".data chunkAlpha 0 [] (by decide) (by decide)⟩

theorem dropWhile_isPySpace_replicate_a (n : Nat) :
    List.dropWhile isPySpace (List.replicate n 'a') = List.replicate n 'a' := by
  cases n with
  | zero => rfl
  | succ m =>
    rw [List.replicate_succ, List.dropWhile_cons, if_neg (by decide)]

theorem stripStr_replicate_a (n : Nat) :
    stripStr (List.replicate n 'a') = List.replicate n 'a' := by
  unfold stripStr
  rw [dropWhile_isPySpace_replicate_a, List.reverse_replicate,
    dropWhile_isPySpace_replicate_a, List.reverse_replicate]

theorem stripStr_bigChunk_length : (stripStr bigChunk.text).length = 2000 := by
  have htext : bigChunk.text = List.replicate 2000 'a' := rfl
  rw [htext, stripStr_replicate_a, List.length_replicate]

theorem buildContext_cons (mc : Nat) (ctx : Str) (chosen : List (Chunk × ℚ))
    (h : Chunk × ℚ) (rest : List (Chunk × ℚ)) :
    buildContext mc ctx chosen (h :: rest) =
      if mc < ctx.length + (stripStr h.1.text).length + 1 then (ctx, chosen)
      else buildContext mc (ctx ++ (if ctx = [] then [] else ['\n']) ++ stripStr h.1.text)
        (chosen ++ [h]) rest := rfl

theorem buildContext_bigChunk :
    buildContext 2000 [] [] [(bigChunk, 0)] = ([], []) := by
  rw [buildContext_cons]
  have hc : (2000 : Nat) < List.length ([] : Str) +
      (stripStr ((bigChunk, (0 : ℚ))).1.text).length + 1 := by
    have h2 : (stripStr ((bigChunk, (0 : ℚ))).1.text).length = 2000 :=
      stripStr_bigChunk_length
    omega
  rw [if_pos hc]

theorem pickSent_empty_sentence (terms : List Str) (chosen : List (Chunk × ℚ)) :
    pickSent terms chosen [] = none := by
  unfold pickSent
  rw [if_neg]
  have h0 : overlapCount terms [] = 0 := rfl
  have h1 : 1 ≤ threshold terms := Nat.le_max_left 1 _
  omega

theorem answer_empty_context (a : OfflineAnswerer) (q : Str) (h : Chunk × ℚ)
    (rest : List (Chunk × ℚ))
    (hbc : buildContext a.max_context_chars [] [] (h :: rest) = ([], [])) :
    a.answer q (h :: rest) = .error PyErr.indexError := by
  have hfm : ((splitSentences ([] : Str)).filterMap
      (pickSent (queryTerms q) ([] : List (Chunk × ℚ)))) = [] := by
    have hsent : splitSentences ([] : Str) = [[]] := rfl
    rw [hsent, List.filterMap_cons, pickSent_empty_sentence, List.filterMap_nil]
  simp only [OfflineAnswerer.answer]
  rw [hbc]
  show (if ((splitSentences ([] : Str)).filterMap
      (pickSent (queryTerms q) ([] : List (Chunk × ℚ)))) = [] then _ else _) = _
  rw [hfm, if_pos rfl]

/-- C6 counterexample: with a 2000-character top chunk (overflowing the
default budget of 2000), the hits list is non-empty and no sentence of the
(empty) assembled context meets the term-overlap threshold, yet `answer`
raises an IndexError instead of returning the first sentence of the
top-ranked chunk. -/
theorem offline_fallback_counterexample :
    OfflineAnswerer.answer {} "x".data [(bigChunk, 0)] = .error PyErr.indexError ∧
    (∀ s ∈ splitSentences (buildContext (2000 : Nat) [] [] [(bigChunk, 0)]).1,
      overlapCount (queryTerms "x".data) s < threshold (queryTerms "x".data)) := by
  constructor
  · exact answer_empty_context {} "x".data (bigChunk, 0) [] buildContext_bigChunk
  · rw [buildContext_bigChunk]
    decide

/-- C10: the local-extractive answer is total exactly under the
context-budget precondition.  For every non-empty hits list whose top
chunk's stripped text fits (`length + 1 ≤ max_context_chars`, i.e. length at
most `max_context_chars - 1`), `answer` returns a string; and for the
concrete non-empty hits list headed by a 2000-character chunk (overflowing
the default budget of 2000), the context buffer stays empty and `answer`
fails with the out-of-range index error raised by the fallback step. -/
theorem offline_budget_totality :
    (∀ (a : OfflineAnswerer) (q : Str) (h : Chunk × ℚ) (rest : List (Chunk × ℚ)),
      (stripStr h.1.text).length + 1 ≤ a.max_context_chars →
      ∃ out, a.answer q (h :: rest) = .ok out) ∧
    ((2000 : Nat) < (stripStr bigChunk.text).length + 1 ∧
      (buildContext (2000 : Nat) [] [] [(bigChunk, 0)]).1 = [] ∧
      OfflineAnswerer.answer {} "y".data [(bigChunk, 0)] = .error PyErr.indexError) := by
  constructor
  · intro a q h rest hb
    obtain ⟨t, ht⟩ := buildContext_head_fits a.max_context_chars h rest hb
    simp only [OfflineAnswerer.answer]
    by_cases hp : (splitSentences (buildContext a.max_context_chars [] [] (h :: rest)).1).filterMap
        (pickSent (queryTerms q) (buildContext a.max_context_chars [] [] (h :: rest)).2) = []
    · rw [if_pos hp, ht]
      exact ⟨_, rfl⟩
    · rw [if_neg hp]
      exact ⟨_, rfl⟩
  · refine ⟨?_, ?_, ?_⟩
    · have h2 := stripStr_bigChunk_length
      omega
    · rw [buildContext_bigChunk]
    · exact answer_empty_context {} "y".data (bigChunk, 0) [] buildContext_bigChunk

/-- C10 witness: a concrete fitting hits list gets an answer string. -/
theorem offline_budget_totality_witness :
    ∃ out, OfflineAnswerer.answer {} "w".data [(chunkA0, 0)] = .ok out :=
  offline_budget_totality.1 {} "w".data (chunkA0, 0) [] (by decide)
